import Mathlib

/-!
A verification development for the `dorky` reconnaissance CLI (Go).
The program reads candidate words from standard input, normalizes them
(trim, optional URL-cleaning, whitespace-removal and hyphenation variants,
deduplication) and dispatches search queries to the GitHub and GitLab APIs,
printing matched names.

The Go source is shallowly embedded below: pure string manipulation becomes
Lean functions on `String` / `List Char`; the effectful search functions are
modelled as functions from an `Oracle` (standing for the environment:
credential presence and remote API responses) to the list of search calls
issued together with the text printed to standard output.
-/

namespace Dorky

/-- The character U+0027 (single quote), used by the Go `fmt.Sprintf`
format strings such as `"GitHub organizations matching '%s'"`. -/
def sq : Char := Char.ofNat 39

/-- The string `s` surrounded by single quotes, as produced by the
format directives of the Go source that quote the query word. -/
def quoted (s : String) : String := String.mk [sq] ++ s ++ String.mk [sq]

/-- Embedding of Go `unicode.IsSpace` (the predicate used by
`strings.TrimSpace`): White_Space code points. -/
def goIsSpace (c : Char) : Bool :=
  c == ' ' || c == Char.ofNat 9 || c == Char.ofNat 10 || c == Char.ofNat 11 ||
  c == Char.ofNat 12 || c == Char.ofNat 13 || c == Char.ofNat 0x85 ||
  c == Char.ofNat 0xA0 || c == Char.ofNat 0x1680 ||
  (0x2000 ≤ c.toNat && c.toNat ≤ 0x200A) ||
  c == Char.ofNat 0x2028 || c == Char.ofNat 0x2029 || c == Char.ofNat 0x202F ||
  c == Char.ofNat 0x205F || c == Char.ofNat 0x3000

/-- Embedding of Go `strings.TrimSpace`: drop leading and trailing
characters satisfying `unicode.IsSpace`. -/
def trimSpace (s : String) : String :=
  String.mk (((s.data.dropWhile goIsSpace).reverse.dropWhile goIsSpace).reverse)

/-- The RE2 character class `\s` used by the Go regexp `spaceRegexp`,
namely `[\t\n\f\r ]`. -/
def re2IsSpace (c : Char) : Bool :=
  c == Char.ofNat 9 || c == Char.ofNat 10 || c == Char.ofNat 12 ||
  c == Char.ofNat 13 || c == ' '

/-- Embedding of `spaceRegexp.ReplaceAllString(word, repl)` for the regexp
`\s+`: every maximal run of `\s` characters is replaced by `repl`.
The flag `inRun` records whether the previous character belonged to a run
(so that `repl` is emitted once per run, at its first character). -/
def replRuns (repl : List Char) : List Char → Bool → List Char
  | [], _ => []
  | c :: cs, inRun =>
    if re2IsSpace c then (if inRun then [] else repl) ++ replRuns repl cs true
    else c :: replRuns repl cs false

/-- Embedding of the Go function `removeWhitespace`: the word with all
whitespace runs removed, a newline, and the word with whitespace runs
replaced by hyphens. -/
def removeWhitespace (word : String) : String :=
  String.mk (replRuns [] word.data false ++ Char.ofNat 10 :: replRuns [Char.ofNat 45] word.data false)

/-- Splitting a character list at every newline, following Go
`strings.Split` with separator `"\n"`. -/
def splitNlChars : List Char → List (List Char)
  | [] => [[]]
  | c :: cs =>
    if c == Char.ofNat 10 then [] :: splitNlChars cs
    else
      match splitNlChars cs with
      | [] => [[c]]
      | h :: t => (c :: h) :: t

/-- Embedding of `strings.Split(word, "\n")`. -/
def splitNl (s : String) : List String := (splitNlChars s.data).map String.mk

/-- The first derived variant produced by `removeWhitespace`: all
whitespace runs removed. -/
def noSpaceVariant (word : String) : String := String.mk (replRuns [] word.data false)

/-- The second derived variant produced by `removeWhitespace`: whitespace
runs replaced by a hyphen. -/
def hyphenVariant (word : String) : String := String.mk (replRuns [Char.ofNat 45] word.data false)

/-- The scheme part of the Go regexp `^https?://(?:www\.)?([^/]+)`:
succeeds exactly on inputs starting with `http://` or `https://`,
returning the remainder. -/
def stripScheme : List Char → Option (List Char)
  | 'h' :: 't' :: 't' :: 'p' :: 's' :: ':' :: '/' :: '/' :: r => some r
  | 'h' :: 't' :: 't' :: 'p' :: ':' :: '/' :: '/' :: r => some r
  | _ => none

/-- The optional `www.` part of the regexp: succeeds exactly on inputs
starting with `www.`, returning the remainder. -/
def stripWww : List Char → Option (List Char)
  | 'w' :: 'w' :: 'w' :: '.' :: r => some r
  | _ => none

/-- The capture group `([^/]+)` of the regexp: the longest nonempty
prefix containing no slash, or failure when the first character is a
slash (or the input is empty). -/
def hostFrom (r : List Char) : Option (List Char) :=
  match r.takeWhile (fun d => !(d == '/')) with
  | [] => none
  | c :: cs => some (c :: cs)

/-- Embedding of `urlRegexp.FindStringSubmatch`, returning the capture
group (the host) when the word matches `^https?://(?:www\.)?([^/]+)`.
RE2 submatch semantics are leftmost-first, so the greedy optional
`(?:www\.)?` is tried before falling back to matching the host at the
start of the remainder. -/
def findUrlHost (cs : List Char) : Option (List Char) :=
  match stripScheme cs with
  | none => none
  | some r =>
    match stripWww r with
    | some r2 =>
      match hostFrom r2 with
      | some h => some h
      | none => hostFrom r
    | none => hostFrom r

/-- Embedding of the Go function `cleanWord`: replace an HTTP(S) URL by
its host portion; leave any non-matching word unchanged. -/
def cleanWord (word : String) : String :=
  match findUrlHost word.data with
  | some h => String.mk h
  | none => word

/-- The Go `config` struct holding the parsed command-line flags. -/
structure Config where
  oFlag : Bool
  rFlag : Bool
  uFlag : Bool
  maxFlag : Int
  cFlag : Bool
  ghFlag : Bool
  glFlag : Bool
  sFlag : Bool
  vFlag : Bool
deriving Repr

/-- Embedding of the Go function `addWordToMap`: insert a word into the
dedup collection unless it is already present.  The Go `map[string]struct{}`
is modelled as a duplicate-free list in insertion order; membership is the
only property the program relies on. -/
def addWordToMap (words : List String) (word : String) : List String :=
  if word ∈ words then words else words ++ [word]

/-- The optional URL-cleaning step at the head of `processWord`:
`if cfg.cFlag { word = cleanWord(word) }`. -/
def applyClean (cfg : Config) (word : String) : String :=
  if cfg.cFlag then cleanWord word else word

/-- Embedding of the Go function `processWord`: optionally URL-clean the
word, insert it, then insert every line of `removeWhitespace word`
(i.e. the whitespace-removed and the hyphenated variant). -/
def processWord (cfg : Config) (word0 : String) (words : List String) : List String :=
  let word := applyClean cfg word0
  let words1 := addWordToMap words word
  let wordLines := splitNl (removeWhitespace word)
  wordLines.foldl addWordToMap words1

/-- Embedding of the Go function `readAndCleanWords`: trim every input
line and process it into the dedup collection. -/
def readAndCleanWords (cfg : Config) (input : List String) : List String :=
  input.foldl (fun ws line => processWord cfg (trimSpace line) ws) []

/-! ## The query dispatcher

The search functions perform I/O: they create an API client from an
environment credential, issue HTTP requests through the two platform SDKs
and print to standard output.  They are embedded as pure functions of an
`Oracle` describing the environment: whether each credential variable is
set, and the outcome (remote error or list of matched names) of each
possible request.  Each function returns the list of search calls it
issues together with the exact text it prints. -/

/-- One search call of the dispatcher, at the granularity of the spec:
one category query for one word on one platform.  `glGroupsUsers` is the
single combined groups-and-users search that GitLab exposes
(`searchGitLabGroupsAndUsers`). -/
inductive SearchCall where
  | ghOrgs (query : String) (maxResults : Int)
  | ghRepos (query : String) (maxResults : Int)
  | ghUsers (query : String) (maxResults : Int)
  | glGroupsUsers (query : String) (maxResults : Int)
  | glProjects (query : String) (maxResults : Int)
deriving DecidableEq, Repr

/-- The word a search call queries for. -/
def SearchCall.query : SearchCall → String
  | ghOrgs q _ => q
  | ghRepos q _ => q
  | ghUsers q _ => q
  | glGroupsUsers q _ => q
  | glProjects q _ => q

/-- Whether a search call goes to GitLab. -/
def SearchCall.isGitLab : SearchCall → Bool
  | glGroupsUsers _ _ => true
  | glProjects _ _ => true
  | _ => false

/-- The environment of one run: presence of the two credential variables
and the remote outcome of every possible request.  `ghOrgResult q m` is
the outcome of the GitHub organization search for `q` (implemented in the
source as a users-search with query `"type:org " + q`), and similarly for
the other categories.  An `Except.error` value stands for any remote
failure (API error, rate-limit exhaustion, network failure). -/
structure Oracle where
  ghToken : Bool
  glToken : Bool
  ghOrgResult : String → Int → Except String (List String)
  ghRepoResult : String → Int → Except String (List String)
  ghUserResult : String → Int → Except String (List String)
  glGroupResult : String → Int → Except String (List String)
  glUserResult : String → Int → Except String (List String)
  glProjectResult : String → Int → Except String (List String)

/-- The simple-mode output of `printResults`: each matched name on its
own line. -/
def simpleLines : List String → String
  | [] => ""
  | r :: rs => r ++ "\n" ++ simpleLines rs

/-- The default-mode body of `printResults`: each matched name as a
bullet line. -/
def bulletLines : List String → String
  | [] => ""
  | r :: rs => "- " ++ r ++ "\n" ++ bulletLines rs

/-- Embedding of the Go function `printResults`. -/
def printResults (cfg : Config) (header : String) (results : List String) : String :=
  if cfg.sFlag then simpleLines results
  else "\n" ++ header ++ ":\n" ++ bulletLines results

/-- Embedding of `searchGitHubOrganizations`: report a client-creation
error when the credential is absent, otherwise issue the search and
either report the remote error or print the matched logins. -/
def searchGitHubOrganizations (ω : Oracle) (cfg : Config) (query : String)
    (maxResults : Int) : List SearchCall × String :=
  if ω.ghToken then
    match ω.ghOrgResult query maxResults with
    | .error e =>
      ([.ghOrgs query maxResults], "Error searching organizations: " ++ e ++ "\n")
    | .ok logins =>
      ([.ghOrgs query maxResults],
        printResults cfg ("GitHub organizations matching " ++ quoted query) logins)
  else
    ([], "Error creating GitHub client: GITHUB_ACCESS_TOKEN environment variable is not set\n")

/-- Embedding of `searchGitHubRepositories`. -/
def searchGitHubRepositories (ω : Oracle) (cfg : Config) (query : String)
    (maxResults : Int) : List SearchCall × String :=
  if ω.ghToken then
    match ω.ghRepoResult query maxResults with
    | .error e =>
      ([.ghRepos query maxResults], "Error searching repositories: " ++ e ++ "\n")
    | .ok names =>
      ([.ghRepos query maxResults],
        printResults cfg ("GitHub repositories matching " ++ quoted query) names)
  else
    ([], "Error creating GitHub client: GITHUB_ACCESS_TOKEN environment variable is not set\n")

/-- Embedding of `searchGitHubUsers`. -/
def searchGitHubUsers (ω : Oracle) (cfg : Config) (query : String)
    (maxResults : Int) : List SearchCall × String :=
  if ω.ghToken then
    match ω.ghUserResult query maxResults with
    | .error e =>
      ([.ghUsers query maxResults], "Error searching users: " ++ e ++ "\n")
    | .ok logins =>
      ([.ghUsers query maxResults],
        printResults cfg ("GitHub users matching " ++ quoted query) logins)
  else
    ([], "Error creating GitHub client: GITHUB_ACCESS_TOKEN environment variable is not set\n")

/-- Embedding of `searchGitLabGroupsAndUsers`, the single combined
GitLab groups-and-users search.  It lists groups and then users; a group
listing error aborts the rest of this one call.  The group results are
printed only under the organization flag and the user results only under
the user flag. -/
def searchGitLabGroupsAndUsers (ω : Oracle) (cfg : Config) (query : String)
    (maxResults : Int) : List SearchCall × String :=
  if ω.glToken then
    match ω.glGroupResult query maxResults with
    | .error e =>
      ([.glGroupsUsers query maxResults], "Error searching GitLab groups: " ++ e ++ "\n")
    | .ok groups =>
      let out1 :=
        if cfg.oFlag then
          printResults cfg ("GitLab groups matching " ++ quoted query) groups
        else ""
      match ω.glUserResult query maxResults with
      | .error e =>
        ([.glGroupsUsers query maxResults],
          out1 ++ ("Error searching GitLab users: " ++ e ++ "\n"))
      | .ok users =>
        let out2 :=
          if cfg.uFlag then
            printResults cfg ("GitLab users matching " ++ quoted query) users
          else ""
        ([.glGroupsUsers query maxResults], out1 ++ out2)
  else
    ([], "Error creating GitLab client: GITLAB_ACCESS_TOKEN environment variable is not set\n")

/-- Embedding of `searchGitLabProjects`. -/
def searchGitLabProjects (ω : Oracle) (cfg : Config) (query : String)
    (maxResults : Int) : List SearchCall × String :=
  if ω.glToken then
    match ω.glProjectResult query maxResults with
    | .error e =>
      ([.glProjects query maxResults], "Error searching GitLab projects: " ++ e ++ "\n")
    | .ok names =>
      ([.glProjects query maxResults],
        printResults cfg ("GitLab projects matching " ++ quoted query) names)
  else
    ([], "Error creating GitLab client: GITLAB_ACCESS_TOKEN environment variable is not set\n")

/-- Sequencing of two effectful steps: concatenate the issued calls and
the printed output. -/
def pappend (a b : List SearchCall × String) : List SearchCall × String :=
  (a.1 ++ b.1, a.2 ++ b.2)

/-- Embedding of `searchGitHub`: the category searches enabled by the
flags, in source order. -/
def searchGitHub (ω : Oracle) (cfg : Config) (query : String) : List SearchCall × String :=
  pappend (if cfg.oFlag then searchGitHubOrganizations ω cfg query cfg.maxFlag else ([], ""))
    (pappend (if cfg.rFlag then searchGitHubRepositories ω cfg query cfg.maxFlag else ([], ""))
      (if cfg.uFlag then searchGitHubUsers ω cfg query cfg.maxFlag else ([], "")))

/-- Embedding of `searchGitLab`: the combined groups-and-users search when
either the organization or the user flag is set, and the projects search
under the repository flag. -/
def searchGitLab (ω : Oracle) (cfg : Config) (query : String) : List SearchCall × String :=
  pappend
    (if cfg.oFlag || cfg.uFlag then searchGitLabGroupsAndUsers ω cfg query cfg.maxFlag
     else ([], ""))
    (if cfg.rFlag then searchGitLabProjects ω cfg query cfg.maxFlag else ([], ""))

/-- Embedding of `verbosePrint`: the text printed when the verbose flag
is set, nothing otherwise. -/
def vp (cfg : Config) (s : String) : String :=
  if cfg.vFlag then s else ""

/-- The body of the word loop in `searchPlatforms` for one word: GitHub
unless restricted to GitLab, then GitLab unless restricted to GitHub. -/
def searchWord (ω : Oracle) (cfg : Config) (word : String) : List SearchCall × String :=
  let gh := if cfg.glFlag then ([], "") else searchGitHub ω cfg word
  let gl := if cfg.ghFlag then ([], "") else searchGitLab ω cfg word
  (gh.1 ++ gl.1,
    vp cfg ("Searching GitHub for word: " ++ word ++ "\n") ++ gh.2 ++
      vp cfg ("Searching GitLab for word: " ++ word ++ "\n") ++ gl.2)

/-- Embedding of `searchPlatforms`: the word loop. -/
def searchPlatforms (ω : Oracle) (cfg : Config) : List String → List SearchCall × String
  | [] => ([], "")
  | w :: ws => pappend (searchWord ω cfg w) (searchPlatforms ω cfg ws)

/-- The observable outcome of one run of `main`: the process exit code,
whether standard input was read, the search calls issued and the text
printed to standard output. -/
structure RunResult where
  exitCode : Nat
  stdinRead : Bool
  calls : List SearchCall
  output : String
deriving Repr

/-- Embedding of `main`: validate the flags (exiting 1 before any I/O
when no category flag is set), read and normalize standard input (exiting
1 on a read error), then search the platforms and exit 0.  `input` is the
list of lines successfully read from standard input and `readErr` the
scanner error, if any, hit after them. -/
def runMain (ω : Oracle) (cfg : Config) (input : List String)
    (readErr : Option String) : RunResult :=
  if cfg.oFlag || cfg.rFlag || cfg.uFlag then
    let pre := vp cfg "Flags validated.\n" ++ vp cfg "Reading and cleaning words...\n"
    let words := readAndCleanWords cfg input
    match readErr with
    | some e => ⟨1, true, [], pre ++ ("Error reading stdin: " ++ e ++ "\n")⟩
    | none =>
      let r := searchPlatforms ω cfg words
      ⟨0, true, r.1,
        pre ++ vp cfg "Words cleaned.\n" ++ vp cfg "Searching platforms...\n" ++ r.2 ++
          vp cfg "Platform search completed.\n"⟩
  else
    ⟨1, false, [], "At least one search flag (-o, -r, or -u) must be specified\n"⟩

/-- The calls `searchWord` issues for one word, as determined by the
flags and the presence of the two credentials alone: remote outcomes do
not influence which calls are issued. -/
def wordCalls (ghT glT : Bool) (cfg : Config) (w : String) : List SearchCall :=
  (if cfg.glFlag then []
   else
     (if cfg.oFlag then (if ghT then [SearchCall.ghOrgs w cfg.maxFlag] else []) else []) ++
     (if cfg.rFlag then (if ghT then [SearchCall.ghRepos w cfg.maxFlag] else []) else []) ++
     (if cfg.uFlag then (if ghT then [SearchCall.ghUsers w cfg.maxFlag] else []) else [])) ++
  (if cfg.ghFlag then []
   else
     (if cfg.oFlag || cfg.uFlag then
        (if glT then [SearchCall.glGroupsUsers w cfg.maxFlag] else []) else []) ++
     (if cfg.rFlag then (if glT then [SearchCall.glProjects w cfg.maxFlag] else []) else []))

/-- A fixed environment in which every remote call fails. -/
def oracleAllError : Oracle :=
  ⟨true, true, fun _ _ => .error "remote failure", fun _ _ => .error "remote failure",
    fun _ _ => .error "remote failure", fun _ _ => .error "remote failure",
    fun _ _ => .error "remote failure", fun _ _ => .error "remote failure"⟩

/-- A fixed environment in which every remote call succeeds with no
matches. -/
def oracleAllOk : Oracle :=
  ⟨true, true, fun _ _ => .ok [], fun _ _ => .ok [], fun _ _ => .ok [],
    fun _ _ => .ok [], fun _ _ => .ok [], fun _ _ => .ok []⟩

/-! ## Basic properties of the dedup collection -/

/-- Inserting a word makes it a member. -/
theorem mem_addWordToMap_self (words : List String) (word : String) :
    word ∈ addWordToMap words word := by
  unfold addWordToMap
  split
  · assumption
  · simp

/-- Insertion preserves existing members. -/
theorem mem_addWordToMap_of_mem {words : List String} {x : String} (word : String)
    (h : x ∈ words) : x ∈ addWordToMap words word := by
  unfold addWordToMap
  split
  · exact h
  · simp [h]

/-- Inserting an already-present word is a no-op. -/
theorem addWordToMap_of_mem {words : List String} {word : String}
    (h : word ∈ words) : addWordToMap words word = words := by
  unfold addWordToMap
  simp [h]

/-- Folding insertions preserves existing members. -/
theorem mem_foldl_addWordToMap_of_mem {x : String} (xs : List String)
    (S : List String) (h : x ∈ S) : x ∈ xs.foldl addWordToMap S := by
  induction xs generalizing S with
  | nil => exact h
  | cons hd tl ih => exact ih (addWordToMap S hd) (mem_addWordToMap_of_mem hd h)

/-- Folding insertions inserts every element of the list. -/
theorem mem_foldl_addWordToMap_self {x : String} (xs : List String)
    (S : List String) (h : x ∈ xs) : x ∈ xs.foldl addWordToMap S := by
  induction xs generalizing S with
  | nil => cases h
  | cons hd tl ih =>
    rcases List.mem_cons.1 h with rfl | h2
    · exact mem_foldl_addWordToMap_of_mem tl _ (mem_addWordToMap_self S x)
    · exact ih _ h2

/-- Folding insertions of already-present elements is a no-op. -/
theorem foldl_addWordToMap_of_all_mem (xs : List String) (S : List String)
    (h : ∀ x ∈ xs, x ∈ S) : xs.foldl addWordToMap S = S := by
  induction xs with
  | nil => rfl
  | cons hd tl ih =>
    have hhd : hd ∈ S := h hd (by simp)
    simp only [List.foldl_cons, addWordToMap_of_mem hhd]
    exact ih fun x hx => h x (by simp [hx])

/-! ## Properties of whitespace replacement and newline splitting -/

/-- Every character emitted by `replRuns` comes from the replacement
string or is a non-whitespace character of the input. -/
theorem mem_replRuns {repl cs : List Char} {b : Bool} {c : Char}
    (h : c ∈ replRuns repl cs b) : c ∈ repl ∨ re2IsSpace c = false := by
  induction cs generalizing b with
  | nil => simp [replRuns] at h
  | cons hd tl ih =>
    unfold replRuns at h
    by_cases hs : re2IsSpace hd
    · rw [if_pos hs] at h
      rcases List.mem_append.1 h with h1 | h2
      · cases b with
        | true => simp at h1
        | false => exact Or.inl h1
      · exact ih h2
    · rw [if_neg hs] at h
      rcases List.mem_cons.1 h with rfl | h2
      · exact Or.inr (by simpa using hs)
      · exact ih h2

/-- A character that is not RE2 whitespace is not the newline. -/
theorem ne_nl_of_not_space {c : Char} (h : re2IsSpace c = false) :
    (c == Char.ofNat 10) = false := by
  by_cases hc : c = Char.ofNat 10
  · subst hc
    simp [re2IsSpace] at h
  · simp [hc]

/-- A newline-free list splits into itself. -/
theorem splitNlChars_no_nl (b : List Char)
    (hb : ∀ c ∈ b, (c == Char.ofNat 10) = false) : splitNlChars b = [b] := by
  induction b with
  | nil => rfl
  | cons hd tl ih =>
    have hhd : (hd == Char.ofNat 10) = false := hb hd (by simp)
    have htl : splitNlChars tl = [tl] := ih fun c hc => hb c (by simp [hc])
    simp [splitNlChars, hhd, htl]

/-- Splitting at the unique newline of `a ++ nl :: b` yields `[a, b]`
when neither part contains a newline. -/
theorem splitNlChars_single (a b : List Char)
    (ha : ∀ c ∈ a, (c == Char.ofNat 10) = false)
    (hb : ∀ c ∈ b, (c == Char.ofNat 10) = false) :
    splitNlChars (a ++ Char.ofNat 10 :: b) = [a, b] := by
  induction a with
  | nil => simp [splitNlChars, splitNlChars_no_nl b hb]
  | cons hd tl ih =>
    have hhd : (hd == Char.ofNat 10) = false := ha hd (by simp)
    have htl := ih fun c hc => ha c (by simp [hc])
    simp only [List.cons_append, splitNlChars, hhd, Bool.false_eq_true, if_false,
      List.append_eq]
    rw [htl]

/-- Go `strings.Split(removeWhitespace word, "\n")` returns exactly the
whitespace-removed variant followed by the hyphenated variant. -/
theorem splitNl_removeWhitespace (word : String) :
    splitNl (removeWhitespace word) = [noSpaceVariant word, hyphenVariant word] := by
  unfold splitNl removeWhitespace
  have ha : ∀ c ∈ replRuns [] word.data false, (c == Char.ofNat 10) = false := by
    intro c hc
    rcases mem_replRuns hc with h1 | h2
    · simp at h1
    · exact ne_nl_of_not_space h2
  have hb : ∀ c ∈ replRuns [Char.ofNat 45] word.data false, (c == Char.ofNat 10) = false := by
    intro c hc
    rcases mem_replRuns hc with h1 | h2
    · rcases List.mem_singleton.1 h1 with rfl
      decide
    · exact ne_nl_of_not_space h2
  rw [show (String.mk (replRuns [] word.data false ++ Char.ofNat 10 :: replRuns [Char.ofNat 45] word.data false)).data = replRuns [] word.data false ++ Char.ofNat 10 :: replRuns [Char.ofNat 45] word.data false from rfl]
  rw [splitNlChars_single _ _ ha hb]
  rfl

/-- Unfolding `processWord`: the word and its two variants are inserted,
in that order. -/
theorem processWord_eq (cfg : Config) (word0 : String) (words : List String) :
    processWord cfg word0 words =
      addWordToMap
        (addWordToMap (addWordToMap words (applyClean cfg word0))
          (noSpaceVariant (applyClean cfg word0)))
        (hyphenVariant (applyClean cfg word0)) := by
  simp only [processWord, splitNl_removeWhitespace]
  rfl

/-! ## Properties of `cleanWord` -/

/-- The capture group returned by `hostFrom` contains no slash. -/
theorem hostFrom_no_slash {r h : List Char} (hh : hostFrom r = some h) :
    ∀ c ∈ h, (c == '/') = false := by
  unfold hostFrom at hh
  split at hh
  · cases hh
  · rename_i c cs heq
    cases hh
    intro x hx
    have hx2 : x ∈ r.takeWhile (fun d => !(d == '/')) := by
      rw [heq]
      exact hx
    have := List.mem_takeWhile_imp hx2
    simpa using this

/-- Any capture group returned by the URL matcher contains no slash. -/
theorem findUrlHost_no_slash {cs h : List Char} (hf : findUrlHost cs = some h) :
    ∀ c ∈ h, (c == '/') = false := by
  unfold findUrlHost at hf
  split at hf
  · cases hf
  · rename_i r _
    split at hf
    · split at hf
      · rename_i h2 heq
        cases hf
        exact hostFrom_no_slash heq
      · exact hostFrom_no_slash hf
    · exact hostFrom_no_slash hf

/-- A slash-free word cannot start with an HTTP(S) scheme. -/
theorem stripScheme_none_of_no_slash (cs : List Char)
    (h : ∀ c ∈ cs, (c == '/') = false) : stripScheme cs = none := by
  unfold stripScheme
  split
  · exact absurd (h '/' (by simp)) (by decide)
  · exact absurd (h '/' (by simp)) (by decide)
  · rfl

/-- URL cleaning is idempotent. -/
theorem cleanWord_idem (w : String) : cleanWord (cleanWord w) = cleanWord w := by
  unfold cleanWord
  cases hf : findUrlHost w.data with
  | none => simp [hf]
  | some h =>
    have h1 : stripScheme h = none :=
      stripScheme_none_of_no_slash h (findUrlHost_no_slash hf)
    have h2 : findUrlHost (String.mk h).data = none := by
      show findUrlHost h = none
      unfold findUrlHost
      rw [h1]
    simp [hf, h2]

/-- The cleaning step of `processWord` is idempotent. -/
theorem applyClean_idem (cfg : Config) (w : String) :
    applyClean cfg (applyClean cfg w) = applyClean cfg w := by
  unfold applyClean
  split
  · exact cleanWord_idem w
  · rfl

/-- Taking while a predicate holds distributes over an append whose
first part satisfies the predicate everywhere. -/
theorem takeWhile_append_all {p : Char → Bool} (a b : List Char)
    (h : ∀ x ∈ a, p x = true) :
    (a ++ b).takeWhile p = a ++ b.takeWhile p := by
  induction a with
  | nil => rfl
  | cons hd tl ih =>
    have hhd : p hd = true := h hd (by simp)
    simp only [List.cons_append, List.takeWhile_cons, hhd, if_true]
    rw [ih fun x hx => h x (by simp [hx])]

/-- A list that does not start with `www.` and whose slash-free part is
followed by a slash still does not start with `www.`. -/
theorem stripWww_append_none (a b : List Char) (hw : stripWww a = none)
    (hs : ∀ c ∈ a, (c == '/') = false) : stripWww (a ++ '/' :: b) = none := by
  rcases a with _ | ⟨c1, _ | ⟨c2, _ | ⟨c3, _ | ⟨c4, a5⟩⟩⟩⟩
  · rfl
  · unfold stripWww
    split
    · rename_i heq
      simp at heq
    · rfl
  · unfold stripWww
    split
    · rename_i heq
      simp at heq
    · rfl
  · unfold stripWww
    split
    · rename_i heq
      simp at heq
    · rfl
  · unfold stripWww
    split
    · rename_i heq
      simp only [List.cons_append, List.cons.injEq] at heq
      obtain ⟨rfl, rfl, rfl, rfl, -⟩ := heq
      simp [stripWww] at hw
    · rfl

/-- Positive characterization of `cleanWord` on HTTP(S) URLs: for a
nonempty, slash-free host that does not itself start with `www.`, the
scheme, an optional `www.` prefix, and everything from the first slash on
are stripped, leaving exactly the host. -/
theorem cleanWord_url (host rest : String) (hne : host.data ≠ [])
    (hs : ∀ c ∈ host.data, (c == '/') = false) (hw : stripWww host.data = none) :
    cleanWord ("https://" ++ host ++ "/" ++ rest) = host ∧
    cleanWord ("http://" ++ host ++ "/" ++ rest) = host ∧
    cleanWord ("https://www." ++ host ++ "/" ++ rest) = host := by
  have htw : List.takeWhile (fun d => !(d == '/')) (host.data ++ '/' :: rest.data)
      = host.data := by
    rw [takeWhile_append_all _ _ (fun x hx => by simp [hs x hx])]
    rw [show List.takeWhile (fun d => !(d == '/')) ('/' :: rest.data) = [] from rfl]
    exact List.append_nil _
  have hHost : hostFrom (host.data ++ '/' :: rest.data) = some host.data := by
    unfold hostFrom
    rw [htw]
    cases hd : host.data with
    | nil => exact absurd hd hne
    | cons c cs => rfl
  have hwX : stripWww (host.data ++ '/' :: rest.data) = none :=
    stripWww_append_none host.data rest.data hw hs
  have d1 : "https://".data = ['h', 't', 't', 'p', 's', ':', '/', '/'] := rfl
  have d2 : "/".data = ['/'] := rfl
  have d3 : "http://".data = ['h', 't', 't', 'p', ':', '/', '/'] := rfl
  have d4 : "https://www.".data =
      ['h', 't', 't', 'p', 's', ':', '/', '/', 'w', 'w', 'w', '.'] := rfl
  have e1 : ("https://" ++ host ++ "/" ++ rest).data =
      ['h', 't', 't', 'p', 's', ':', '/', '/'] ++ (host.data ++ '/' :: rest.data) := by
    simp [String.data_append, d1, d2, List.append_assoc]
  have e2 : ("http://" ++ host ++ "/" ++ rest).data =
      ['h', 't', 't', 'p', ':', '/', '/'] ++ (host.data ++ '/' :: rest.data) := by
    simp [String.data_append, d3, d2, List.append_assoc]
  have e3 : ("https://www." ++ host ++ "/" ++ rest).data =
      ['h', 't', 't', 'p', 's', ':', '/', '/', 'w', 'w', 'w', '.'] ++
        (host.data ++ '/' :: rest.data) := by
    simp [String.data_append, d4, d2, List.append_assoc]
  have g1 : stripScheme (['h', 't', 't', 'p', 's', ':', '/', '/'] ++
      (host.data ++ '/' :: rest.data)) = some (host.data ++ '/' :: rest.data) := rfl
  have g2 : stripScheme (['h', 't', 't', 'p', ':', '/', '/'] ++
      (host.data ++ '/' :: rest.data)) = some (host.data ++ '/' :: rest.data) := rfl
  have g3 : stripScheme (['h', 't', 't', 'p', 's', ':', '/', '/', 'w', 'w', 'w', '.'] ++
      (host.data ++ '/' :: rest.data)) =
      some (['w', 'w', 'w', '.'] ++ (host.data ++ '/' :: rest.data)) := rfl
  have g4 : stripWww (['w', 'w', 'w', '.'] ++ (host.data ++ '/' :: rest.data)) =
      some (host.data ++ '/' :: rest.data) := rfl
  have f1 : findUrlHost (['h', 't', 't', 'p', 's', ':', '/', '/'] ++
      (host.data ++ '/' :: rest.data)) = some host.data := by
    simp only [findUrlHost, g1, hwX, hHost]
  have f2 : findUrlHost (['h', 't', 't', 'p', ':', '/', '/'] ++
      (host.data ++ '/' :: rest.data)) = some host.data := by
    simp only [findUrlHost, g2, hwX, hHost]
  have f3 : findUrlHost (['h', 't', 't', 'p', 's', ':', '/', '/', 'w', 'w', 'w', '.'] ++
      (host.data ++ '/' :: rest.data)) = some host.data := by
    simp only [findUrlHost, g3, g4, hHost]
  refine ⟨?_, ?_, ?_⟩
  · show cleanWord ("https://" ++ host ++ "/" ++ rest) = host
    unfold cleanWord
    rw [e1, f1]
  · show cleanWord ("http://" ++ host ++ "/" ++ rest) = host
    unfold cleanWord
    rw [e2, f2]
  · show cleanWord ("https://www." ++ host ++ "/" ++ rest) = host
    unfold cleanWord
    rw [e3, f3]

/-! ## Properties of the dispatcher -/

/-- The organization search issues its one call exactly when the GitHub
credential is present, whatever the remote outcome. -/
theorem searchGitHubOrganizations_calls (ω : Oracle) (cfg : Config) (q : String) (m : Int) :
    (searchGitHubOrganizations ω cfg q m).1 =
      if ω.ghToken then [SearchCall.ghOrgs q m] else [] := by
  unfold searchGitHubOrganizations
  cases hg : ω.ghToken
  · simp
  · cases hr : ω.ghOrgResult q m <;> simp [hr]

/-- The repository search issues its one call exactly when the GitHub
credential is present, whatever the remote outcome. -/
theorem searchGitHubRepositories_calls (ω : Oracle) (cfg : Config) (q : String) (m : Int) :
    (searchGitHubRepositories ω cfg q m).1 =
      if ω.ghToken then [SearchCall.ghRepos q m] else [] := by
  unfold searchGitHubRepositories
  cases hg : ω.ghToken
  · simp
  · cases hr : ω.ghRepoResult q m <;> simp [hr]

/-- The user search issues its one call exactly when the GitHub
credential is present, whatever the remote outcome. -/
theorem searchGitHubUsers_calls (ω : Oracle) (cfg : Config) (q : String) (m : Int) :
    (searchGitHubUsers ω cfg q m).1 =
      if ω.ghToken then [SearchCall.ghUsers q m] else [] := by
  unfold searchGitHubUsers
  cases hg : ω.ghToken
  · simp
  · cases hr : ω.ghUserResult q m <;> simp [hr]

/-- The combined groups-and-users search issues its one call exactly when
the GitLab credential is present, whatever the remote outcomes. -/
theorem searchGitLabGroupsAndUsers_calls (ω : Oracle) (cfg : Config) (q : String) (m : Int) :
    (searchGitLabGroupsAndUsers ω cfg q m).1 =
      if ω.glToken then [SearchCall.glGroupsUsers q m] else [] := by
  unfold searchGitLabGroupsAndUsers
  cases hg : ω.glToken
  · simp
  · cases hr : ω.glGroupResult q m
    · simp [hr]
    · cases hu : ω.glUserResult q m <;> simp [hr, hu]

/-- The projects search issues its one call exactly when the GitLab
credential is present, whatever the remote outcome. -/
theorem searchGitLabProjects_calls (ω : Oracle) (cfg : Config) (q : String) (m : Int) :
    (searchGitLabProjects ω cfg q m).1 =
      if ω.glToken then [SearchCall.glProjects q m] else [] := by
  unfold searchGitLabProjects
  cases hg : ω.glToken
  · simp
  · cases hr : ω.glProjectResult q m <;> simp [hr]

/-- The calls issued by `searchGitHub` for one word. -/
theorem searchGitHub_calls (ω : Oracle) (cfg : Config) (q : String) :
    (searchGitHub ω cfg q).1 =
      (if cfg.oFlag then (if ω.ghToken then [SearchCall.ghOrgs q cfg.maxFlag] else []) else []) ++
      (if cfg.rFlag then (if ω.ghToken then [SearchCall.ghRepos q cfg.maxFlag] else []) else []) ++
      (if cfg.uFlag then (if ω.ghToken then [SearchCall.ghUsers q cfg.maxFlag] else []) else []) := by
  unfold searchGitHub pappend
  by_cases ho : cfg.oFlag <;> by_cases hr : cfg.rFlag <;> by_cases hu : cfg.uFlag <;>
    simp [ho, hr, hu, searchGitHubOrganizations_calls, searchGitHubRepositories_calls,
      searchGitHubUsers_calls, List.append_assoc]

/-- The calls issued by `searchGitLab` for one word. -/
theorem searchGitLab_calls (ω : Oracle) (cfg : Config) (q : String) :
    (searchGitLab ω cfg q).1 =
      (if cfg.oFlag || cfg.uFlag then
        (if ω.glToken then [SearchCall.glGroupsUsers q cfg.maxFlag] else []) else []) ++
      (if cfg.rFlag then (if ω.glToken then [SearchCall.glProjects q cfg.maxFlag] else []) else []) := by
  unfold searchGitLab pappend
  by_cases ho : cfg.oFlag <;> by_cases hr : cfg.rFlag <;> by_cases hu : cfg.uFlag <;>
    simp [ho, hr, hu, searchGitLabGroupsAndUsers_calls, searchGitLabProjects_calls]

/-- The calls issued for one word depend only on the flags and on which
credentials are present. -/
theorem searchWord_calls (ω : Oracle) (cfg : Config) (w : String) :
    (searchWord ω cfg w).1 = wordCalls ω.ghToken ω.glToken cfg w := by
  unfold searchWord wordCalls
  by_cases hgl : cfg.glFlag <;> by_cases hgh : cfg.ghFlag <;>
    simp [hgl, hgh, searchGitHub_calls, searchGitLab_calls, List.append_assoc]

/-- The per-word call list is a sublist of the five possible calls for
that word. -/
theorem wordCalls_sublist (ghT glT : Bool) (cfg : Config) (w : String) :
    List.Sublist (wordCalls ghT glT cfg w)
      [SearchCall.ghOrgs w cfg.maxFlag, SearchCall.ghRepos w cfg.maxFlag,
        SearchCall.ghUsers w cfg.maxFlag, SearchCall.glGroupsUsers w cfg.maxFlag,
        SearchCall.glProjects w cfg.maxFlag] := by
  have step : ∀ (c d : Bool) (x : SearchCall),
      List.Sublist (if c then (if d then [x] else []) else []) [x] := by
    intro c d x
    split
    · split
      · exact List.Sublist.refl _
      · exact List.nil_sublist _
    · exact List.nil_sublist _
  unfold wordCalls
  have h1 : List.Sublist
      (if cfg.glFlag then []
       else
        (if cfg.oFlag then (if ghT then [SearchCall.ghOrgs w cfg.maxFlag] else []) else []) ++
        (if cfg.rFlag then (if ghT then [SearchCall.ghRepos w cfg.maxFlag] else []) else []) ++
        (if cfg.uFlag then (if ghT then [SearchCall.ghUsers w cfg.maxFlag] else []) else []))
      ([SearchCall.ghOrgs w cfg.maxFlag] ++ [SearchCall.ghRepos w cfg.maxFlag] ++
        [SearchCall.ghUsers w cfg.maxFlag]) := by
    split
    · exact List.nil_sublist _
    · exact ((step _ _ _).append (step _ _ _)).append (step _ _ _)
  have h2 : List.Sublist
      (if cfg.ghFlag then []
       else
        (if cfg.oFlag || cfg.uFlag then
          (if glT then [SearchCall.glGroupsUsers w cfg.maxFlag] else []) else []) ++
        (if cfg.rFlag then (if glT then [SearchCall.glProjects w cfg.maxFlag] else []) else []))
      ([SearchCall.glGroupsUsers w cfg.maxFlag] ++ [SearchCall.glProjects w cfg.maxFlag]) := by
    split
    · exact List.nil_sublist _
    · exact (step _ _ _).append (step _ _ _)
  exact h1.append h2

/-- No call is issued twice for one word. -/
theorem wordCalls_nodup (ghT glT : Bool) (cfg : Config) (w : String) :
    (wordCalls ghT glT cfg w).Nodup :=
  List.Nodup.sublist (wordCalls_sublist ghT glT cfg w) (by simp)

/-- Every call issued for a word queries exactly that word. -/
theorem mem_wordCalls_query {ghT glT : Bool} {cfg : Config} {w : String} {sc : SearchCall}
    (h : sc ∈ wordCalls ghT glT cfg w) : sc.query = w := by
  have h5 := (wordCalls_sublist ghT glT cfg w).subset h
  simp only [List.mem_cons, List.not_mem_nil, or_false] at h5
  rcases h5 with rfl | rfl | rfl | rfl | rfl <;> rfl

/-- The word loop issues exactly the per-word calls of every word, in
order. -/
theorem searchPlatforms_calls (ω : Oracle) (cfg : Config) (ws : List String) :
    (searchPlatforms ω cfg ws).1 = ws.flatMap (wordCalls ω.ghToken ω.glToken cfg) := by
  induction ws with
  | nil => rfl
  | cons w ws ih => simp [searchPlatforms, pappend, searchWord_calls, ih]

/-- With both platform-restriction flags set and verbose mode off, one
word produces no call and no output. -/
theorem searchWord_both_restricted (ω : Oracle) (o r u : Bool) (m : Int) (c s : Bool)
    (w : String) : searchWord ω ⟨o, r, u, m, c, true, true, s, false⟩ w = ([], "") := rfl

/-- With both platform-restriction flags set and verbose mode off, the
word loop performs no call and prints nothing. -/
theorem searchPlatforms_both_restricted (ω : Oracle) (o r u : Bool) (m : Int) (c s : Bool)
    (ws : List String) : searchPlatforms ω ⟨o, r, u, m, c, true, true, s, false⟩ ws = ([], "") := by
  induction ws with
  | nil => rfl
  | cons w ws ih =>
    show pappend (searchWord ω ⟨o, r, u, m, c, true, true, s, false⟩ w)
      (searchPlatforms ω ⟨o, r, u, m, c, true, true, s, false⟩ ws) = ([], "")
    rw [searchWord_both_restricted, ih]
    rfl

/-- Simple-mode printing is the plain concatenation of the matched
names, one per line. -/
theorem simpleLines_eq_foldr (rs : List String) :
    simpleLines rs = rs.foldr (fun r acc => r ++ "\n" ++ acc) "" := by
  induction rs with
  | nil => rfl
  | cons r rs ih => simp [simpleLines, ih]

/-- Default-mode printing of the result body is the concatenation of the
bulleted lines. -/
theorem bulletLines_eq_foldr (rs : List String) :
    bulletLines rs = rs.foldr (fun r acc => "- " ++ r ++ "\n" ++ acc) "" := by
  induction rs with
  | nil => rfl
  | cons r rs ih => simp [bulletLines, ih]

/-- Membership in an optionally-enabled singleton call list forces the
call to be that singleton. -/
theorem mem_opt_singleton {c d : Bool} {x sc : SearchCall}
    (h : sc ∈ (if c then (if d then [x] else []) else [])) : sc = x := by
  split at h
  · split at h
    · simpa using h
    · simp at h
  · simp at h

/-- Dropping while a predicate holds empties a list that satisfies it
everywhere. -/
theorem dropWhile_eq_nil_of_all {p : Char → Bool} (l : List Char)
    (h : ∀ x ∈ l, p x = true) : l.dropWhile p = [] := by
  induction l with
  | nil => rfl
  | cons hd tl ih =>
    rw [List.dropWhile_cons, if_pos (h hd (by simp))]
    exact ih fun x hx => h x (by simp [hx])

/-! ## The claims -/

/-- C1: Each search call is independent: the per-word calls are
determined by the flags and credential presence alone (`wordCalls`
consults no remote outcome), so a remote error in one call never removes
a remaining call of the same word or of a later word; two runs whose
environments agree on credential presence issue identical call lists;
and on a duplicate-free word list no call is ever issued twice (no
retry). -/
theorem claim_c1_calls_error_independent (ω ω2 : Oracle) (cfg : Config) (words : List String)
    (hgh : ω2.ghToken = ω.ghToken) (hgl : ω2.glToken = ω.glToken) :
    (searchPlatforms ω cfg words).1 = words.flatMap (wordCalls ω.ghToken ω.glToken cfg)
    ∧ (searchPlatforms ω2 cfg words).1 = (searchPlatforms ω cfg words).1
    ∧ (words.Nodup → ((searchPlatforms ω cfg words).1).Nodup) := by
  refine ⟨searchPlatforms_calls ω cfg words, ?_, ?_⟩
  · rw [searchPlatforms_calls, searchPlatforms_calls, hgh, hgl]
  · intro hnd
    rw [searchPlatforms_calls]
    refine List.nodup_flatMap.2 ⟨fun x _ => wordCalls_nodup _ _ _ _, ?_⟩
    refine hnd.imp ?_
    intro a b hab x hxa hxb
    exact hab ((mem_wordCalls_query hxa).symm.trans (mem_wordCalls_query hxb))

/-- Witness for C1: with every remote call failing, the issued call list
is the same as with every remote call succeeding, and is
duplicate-free. -/
theorem claim_c1_witness :
    (searchPlatforms oracleAllError ⟨true, true, true, 10, false, false, false, false, false⟩
      ["alpha", "beta"]).1 =
      (searchPlatforms oracleAllOk ⟨true, true, true, 10, false, false, false, false, false⟩
        ["alpha", "beta"]).1
    ∧ ((searchPlatforms oracleAllError ⟨true, true, true, 10, false, false, false, false, false⟩
        ["alpha", "beta"]).1).Nodup := by
  have h := claim_c1_calls_error_independent oracleAllError oracleAllOk
    ⟨true, true, true, 10, false, false, false, false, false⟩ ["alpha", "beta"] rfl rfl
  exact ⟨h.2.1.symm, h.2.2 (by decide)⟩

/-- C2: For every input line, after trimming and optional URL-cleaning,
the normalizer adds to the dedup set the word itself, its
whitespace-removed variant and its hyphenated variant; in particular the
line `codingo dot com` yields exactly the set of those three words. -/
theorem claim_c2_variants_added :
    (∀ (cfg : Config) (line : String) (S : List String),
      applyClean cfg (trimSpace line) ∈ processWord cfg (trimSpace line) S ∧
      noSpaceVariant (applyClean cfg (trimSpace line)) ∈ processWord cfg (trimSpace line) S ∧
      hyphenVariant (applyClean cfg (trimSpace line)) ∈ processWord cfg (trimSpace line) S)
    ∧ readAndCleanWords ⟨true, false, false, 10, false, false, false, false, false⟩
        ["codingo dot com"] = ["codingo dot com", "codingodotcom", "codingo-dot-com"] := by
  constructor
  · intro cfg line S
    rw [processWord_eq]
    exact ⟨mem_addWordToMap_of_mem _ (mem_addWordToMap_of_mem _ (mem_addWordToMap_self _ _)),
      mem_addWordToMap_of_mem _ (mem_addWordToMap_self _ _),
      mem_addWordToMap_self _ _⟩
  · decide

/-- C3: With URL-cleaning enabled, `cleanWord` maps an HTTP(S) URL
(optional `www.` prefix) to its host portion — in particular
`https://example.com/path` to `example.com` — and leaves every
non-matching word unchanged. -/
theorem claim_c3_cleanWord_host :
    cleanWord "https://example.com/path" = "example.com"
    ∧ (∀ w : String, findUrlHost w.data = none → cleanWord w = w)
    ∧ (∀ host rest : String, host.data ≠ [] → (∀ c ∈ host.data, (c == '/') = false) →
        stripWww host.data = none →
        cleanWord ("https://" ++ host ++ "/" ++ rest) = host ∧
        cleanWord ("http://" ++ host ++ "/" ++ rest) = host ∧
        cleanWord ("https://www." ++ host ++ "/" ++ rest) = host) := by
  refine ⟨by decide, ?_, cleanWord_url⟩
  intro w h
  unfold cleanWord
  rw [h]

/-- Witness for C3: the general host-extraction statement evaluated at
`example.com` and `path`. -/
theorem claim_c3_witness :
    cleanWord ("https://" ++ "example.com" ++ "/" ++ "path") = "example.com" :=
  (claim_c3_cleanWord_host.2.2 "example.com" "path" (by decide) (by decide) rfl).1

/-- C4: With only the organization flag set and no platform restriction,
each word gets exactly one category of query per platform: the GitHub
organizations search and the GitLab groups-and-users call; and the output
of that combined call prints only the groups (the user results are
fetched but not printed, since the user flag is off). -/
theorem claim_c4_org_only_dispatch (ω : Oracle) (m : Int) (c s v : Bool) (w : String)
    (groups users : List String) (hg : ω.ghToken = true) (hl : ω.glToken = true) :
    (searchWord ω ⟨true, false, false, m, c, false, false, s, v⟩ w).1 =
      [SearchCall.ghOrgs w m, SearchCall.glGroupsUsers w m]
    ∧ (ω.glGroupResult w m = Except.ok groups → ω.glUserResult w m = Except.ok users →
        (searchGitLabGroupsAndUsers ω ⟨true, false, false, m, c, false, false, s, v⟩ w m).2 =
          printResults ⟨true, false, false, m, c, false, false, s, v⟩
            ("GitLab groups matching " ++ quoted w) groups) := by
  constructor
  · rw [searchWord_calls, hg, hl]
    simp [wordCalls]
  · intro h1 h2
    simp [searchGitLabGroupsAndUsers, hl, h1, h2]

/-- Witness for C4: an environment with both credentials and empty
successful results. -/
theorem claim_c4_witness :
    (searchWord oracleAllOk ⟨true, false, false, 10, false, false, false, false, false⟩ "acme").1 =
      [SearchCall.ghOrgs "acme" 10, SearchCall.glGroupsUsers "acme" 10]
    ∧ (searchGitLabGroupsAndUsers oracleAllOk
        ⟨true, false, false, 10, false, false, false, false, false⟩ "acme" 10).2 =
        printResults ⟨true, false, false, 10, false, false, false, false, false⟩
          ("GitLab groups matching " ++ quoted "acme") [] := by
  have h := claim_c4_org_only_dispatch oracleAllOk 10 false false false "acme" [] [] rfl rfl
  exact ⟨h.1, h.2 rfl rfl⟩

/-- C5: When the GitHub-only restriction flag is set, no GitLab query is
issued for any word of the dispatch set, whatever the other flags, the
environment or the words. -/
theorem claim_c5_github_only (ω : Oracle) (o r u : Bool) (m : Int) (c gl s v : Bool)
    (words : List String) :
    ((searchPlatforms ω ⟨o, r, u, m, c, true, gl, s, v⟩ words).1.all
      fun sc => !sc.isGitLab) = true := by
  rw [searchPlatforms_calls, List.all_eq_true]
  intro sc hsc
  rw [List.mem_flatMap] at hsc
  obtain ⟨w, -, h⟩ := hsc
  unfold wordCalls at h
  rw [List.mem_append] at h
  rcases h with h | h
  · split at h
    · simp at h
    · rw [List.mem_append, List.mem_append] at h
      rcases h with (h | h) | h <;> (have he := mem_opt_singleton h; subst he; rfl)
  · simp at h

/-- C6: In simple mode the printer emits exactly the names one per line
with no header and no bullet (an empty list prints nothing); in default
mode it emits a blank line, the header with a colon, and each match
prefixed by a bullet (an empty list still prints the header). -/
theorem claim_c6_printer_format (o r u : Bool) (m : Int) (c gh gl v : Bool) (header : String)
    (results : List String) :
    printResults ⟨o, r, u, m, c, gh, gl, true, v⟩ header [] = ""
    ∧ printResults ⟨o, r, u, m, c, gh, gl, true, v⟩ header results =
        results.foldr (fun rr acc => rr ++ "\n" ++ acc) ""
    ∧ printResults ⟨o, r, u, m, c, gh, gl, false, v⟩ header [] = "\n" ++ header ++ ":\n"
    ∧ printResults ⟨o, r, u, m, c, gh, gl, false, v⟩ header results =
        "\n" ++ header ++ ":\n" ++ results.foldr (fun rr acc => "- " ++ rr ++ "\n" ++ acc) "" := by
  refine ⟨rfl, simpleLines_eq_foldr results, ?_, ?_⟩
  · simp [printResults, bulletLines]
  · rw [show printResults ⟨o, r, u, m, c, gh, gl, false, v⟩ header results =
      "\n" ++ header ++ ":\n" ++ bulletLines results from rfl, bulletLines_eq_foldr]

/-- C7: Normalization is idempotent: `cleanWord` is idempotent on every
word, and re-processing the already-clean word the normalizer produced
adds no new element to the dedup set. -/
theorem claim_c7_idempotent :
    (∀ w, cleanWord (cleanWord w) = cleanWord w)
    ∧ (∀ (cfg : Config) (w : String) (S : List String),
        processWord cfg (applyClean cfg w) (processWord cfg w S) = processWord cfg w S) := by
  refine ⟨cleanWord_idem, ?_⟩
  intro cfg w S
  have hm1 : applyClean cfg w ∈ processWord cfg w S := by
    rw [processWord_eq]
    exact mem_addWordToMap_of_mem _ (mem_addWordToMap_of_mem _ (mem_addWordToMap_self _ _))
  have hm2 : noSpaceVariant (applyClean cfg w) ∈ processWord cfg w S := by
    rw [processWord_eq]
    exact mem_addWordToMap_of_mem _ (mem_addWordToMap_self _ _)
  have hm3 : hyphenVariant (applyClean cfg w) ∈ processWord cfg w S := by
    rw [processWord_eq]
    exact mem_addWordToMap_self _ _
  rw [processWord_eq cfg (applyClean cfg w) (processWord cfg w S), applyClean_idem,
    addWordToMap_of_mem hm1, addWordToMap_of_mem hm2, addWordToMap_of_mem hm3]

/-- C8: An all-whitespace (or empty) input line trims to the empty
string, which is inserted into the dedup set as a word, and the run then
dispatches the empty word to the enabled searches. -/
theorem claim_c8_empty_word (ω : Oracle) (cfg : Config) (line : String)
    (hsp : ∀ ch ∈ line.data, goIsSpace ch = true)
    (hflag : (cfg.oFlag || cfg.rFlag || cfg.uFlag) = true) :
    trimSpace line = ""
    ∧ readAndCleanWords cfg [line] = [""]
    ∧ (runMain ω cfg [line] none).calls = wordCalls ω.ghToken ω.glToken cfg "" := by
  have h1 : trimSpace line = "" := by
    unfold trimSpace
    rw [dropWhile_eq_nil_of_all line.data hsp]
    rfl
  have h2 : readAndCleanWords cfg [line] = [""] := by
    show processWord cfg (trimSpace line) [] = [""]
    rw [h1, processWord_eq]
    have hac : applyClean cfg "" = "" := by
      unfold applyClean
      split <;> rfl
    rw [hac, show noSpaceVariant "" = "" from rfl, show hyphenVariant "" = "" from rfl]
    rfl
  refine ⟨h1, h2, ?_⟩
  simp [runMain, hflag, h2, searchPlatforms_calls]

/-- Witness for C8: a single-space line under the organization flag. -/
theorem claim_c8_witness :
    trimSpace " " = ""
    ∧ readAndCleanWords ⟨true, false, false, 10, false, false, false, false, false⟩ [" "] = [""]
    ∧ (runMain oracleAllOk ⟨true, false, false, 10, false, false, false, false, false⟩
        [" "] none).calls =
      wordCalls oracleAllOk.ghToken oracleAllOk.glToken
        ⟨true, false, false, 10, false, false, false, false, false⟩ "" :=
  claim_c8_empty_word oracleAllOk ⟨true, false, false, 10, false, false, false, false, false⟩
    " " (by decide) rfl

/-- C9: With no category flag the program exits 1 before reading
standard input and issues no search; with at least one category flag and
a successful read of standard input it exits 0, whatever the outcomes of
the individual search calls. -/
theorem claim_c9_exit_codes (ω : Oracle) (m : Int) (c gh gl s v : Bool) (o r u : Bool)
    (input : List String) (readErr : Option String) :
    runMain ω ⟨false, false, false, m, c, gh, gl, s, v⟩ input readErr =
      ⟨1, false, [], "At least one search flag (-o, -r, or -u) must be specified\n"⟩
    ∧ ((o || r || u) = true →
        (runMain ω ⟨o, r, u, m, c, gh, gl, s, v⟩ input none).exitCode = 0) := by
  constructor
  · rfl
  · intro h
    simp [runMain, h]

/-- Witness for C9: an environment in which every remote call fails
still exits 0 when a category flag is set. -/
theorem claim_c9_witness :
    (runMain oracleAllError ⟨true, false, false, 10, false, false, false, false, false⟩
      ["acme"] none).exitCode = 0 :=
  (claim_c9_exit_codes oracleAllError 10 false false false false false true false false
    ["acme"] none).2 rfl

/-- C10: With both platform-restriction flags set at once, the program
still reads standard input, performs zero queries, prints no results and
exits 0 (verbose mode off, so the output is exactly empty). -/
theorem claim_c10_both_restrictions (ω : Oracle) (o r u : Bool) (m : Int) (c s : Bool)
    (input : List String) (hflag : (o || r || u) = true) :
    (runMain ω ⟨o, r, u, m, c, true, true, s, false⟩ input none).exitCode = 0
    ∧ (runMain ω ⟨o, r, u, m, c, true, true, s, false⟩ input none).stdinRead = true
    ∧ (runMain ω ⟨o, r, u, m, c, true, true, s, false⟩ input none).calls = []
    ∧ (runMain ω ⟨o, r, u, m, c, true, true, s, false⟩ input none).output = "" := by
  simp [runMain, vp, hflag, searchPlatforms_both_restricted]

/-- Witness for C10: all category flags set, both platform restrictions
set, two input lines. -/
theorem claim_c10_witness :
    (runMain oracleAllOk ⟨true, true, true, 10, false, true, true, false, false⟩
      ["acme", ""] none).exitCode = 0
    ∧ (runMain oracleAllOk ⟨true, true, true, 10, false, true, true, false, false⟩
        ["acme", ""] none).stdinRead = true
    ∧ (runMain oracleAllOk ⟨true, true, true, 10, false, true, true, false, false⟩
        ["acme", ""] none).calls = []
    ∧ (runMain oracleAllOk ⟨true, true, true, 10, false, true, true, false, false⟩
        ["acme", ""] none).output = "" :=
  claim_c10_both_restrictions oracleAllOk true true true 10 false false ["acme", ""] rfl

end Dorky
